import Mathlib

/-!
Shallow embedding of the qrvault trust/access-control core:
the route handlers of `server/routes.ts` over the in-memory storage
`MemStorage` of `server/storage.ts`, with JavaScript `undefined` modelled
as `none` and JavaScript `Map` insertion-order semantics modelled on lists.
-/

namespace QRVault

/-- A stored user record (`shared/schema.ts`, table `users`). -/
structure User where
  id : Nat
  email : String
  pin : String
  deriving DecidableEq

/-- A stored document record (`shared/schema.ts`, table `documents`).
`name` is `Option String` because the PATCH handler merges
`{ name: req.body.name }` into the record, which can set the field to
JavaScript `undefined` (modelled as `none`); every creation stores `some`. -/
structure Document where
  id : Nat
  userId : Nat
  name : Option String
  content : String
  contentType : String
  deriving DecidableEq

/-- The `requesterInfo` jsonb blob of an access request. -/
structure RequesterInfo where
  deviceInfo : String
  location : Option String
  timestamp : String
  deriving DecidableEq

/-- A stored access request (`shared/schema.ts`, table `access_requests`).
`status` is `Option String`: the PATCH handler merges
`{ status: req.body.status }`, which can be `undefined`. -/
structure AccessRequest where
  id : Nat
  userId : Nat
  requestedDocuments : List String
  requesterInfo : RequesterInfo
  status : Option String
  deriving DecidableEq

/-- Per-visitor session state: `req.user?.id` (set by login) and
`req.session.verifiedUserId` (set by a successful PIN check). -/
structure Session where
  authenticatedUserId : Option Nat
  verifiedUserId : Option Nat
  deriving DecidableEq

/-- The in-memory store of `MemStorage` (`server/storage.ts`): three
JavaScript `Map`s keyed by the record ids, plus the `currentId` counters.
Each map is modelled as its list of values in insertion order; every value
carries its key in its `id` field at all times. -/
structure MemStorage where
  users : List User
  documents : List Document
  accessRequests : List AccessRequest
  nextUserId : Nat
  nextDocumentId : Nat
  nextAccessRequestId : Nat
  deriving DecidableEq

/-- The store built by the `MemStorage` constructor: empty maps, all
`currentId` counters at 1. -/
def emptyStorage : MemStorage :=
  { users := [], documents := [], accessRequests := []
    nextUserId := 1, nextDocumentId := 1, nextAccessRequestId := 1 }

/-- JavaScript `Map.get(k)` on a map of records keyed by their `id`. -/
def mapGet {α : Type} (key : α → Nat) (l : List α) (k : Nat) : Option α :=
  l.find? (fun x => key x == k)

/-- JavaScript `Map.set(k, v)` on a map of records keyed by their `id`: setting an
existing key replaces the entry in place (iteration order unchanged),
setting a fresh key appends at the end — JavaScript `Map` semantics. -/
def mapSet {α : Type} (key : α → Nat) (l : List α) (k : Nat) (v : α) : List α :=
  if l.any (fun x => key x == k) then l.map (fun x => if key x == k then v else x)
  else l ++ [v]

/-- JavaScript `Map.delete(k)`: remove the entry, keeping the order of the rest. -/
def mapDelete {α : Type} (key : α → Nat) (l : List α) (k : Nat) : List α :=
  l.filter (fun x => !(key x == k))

/-- JavaScript truthiness of an optional number (`undefined` and `0` falsy). -/
def truthyNum : Option Nat → Bool
  | none => false
  | some n => !(n == 0)

/-- JavaScript truthiness of an optional string (`undefined` and `""` falsy). -/
def truthyStr : Option String → Bool
  | none => false
  | some s => !(s == "")

/-! ## MemStorage operations (`server/storage.ts`) -/

/-- Storage op `MemStorage.getUser`. -/
def getUser (s : MemStorage) (id : Nat) : Option User :=
  mapGet User.id s.users id

/-- Storage op `MemStorage.createUser`: `id = currentId.users++`, then `set`. -/
def createUser (s : MemStorage) (email pin : String) : User × MemStorage :=
  let id := s.nextUserId
  let user : User := { id := id, email := email, pin := pin }
  (user, { s with users := mapSet User.id s.users id user, nextUserId := id + 1 })

/-- Storage op `MemStorage.getDocuments`: all documents whose `userId` matches. -/
def getDocuments (s : MemStorage) (userId : Nat) : List Document :=
  s.documents.filter (fun doc => doc.userId == userId)

/-- Storage op `MemStorage.getDocument`. -/
def getDocument (s : MemStorage) (id : Nat) : Option Document :=
  mapGet Document.id s.documents id

/-- Storage op `MemStorage.createDocument`: fresh id from `currentId.documents++`. -/
def createDocument (s : MemStorage) (userId : Nat) (name : Option String)
    (content contentType : String) : Document × MemStorage :=
  let id := s.nextDocumentId
  let newDoc : Document :=
    { id := id, userId := userId, name := name, content := content, contentType := contentType }
  (newDoc, { s with documents := mapSet Document.id s.documents id newDoc
                    nextDocumentId := id + 1 })

/-- Storage op `MemStorage.updateDocument`, specialised to the only call site in
`routes.ts`, which always passes `{ name: req.body.name }`: the spread
`{ ...document, ...updates }` therefore replaces exactly the `name` field
(with `undefined` when the body carried none).  Throws when absent. -/
def updateDocument (s : MemStorage) (id : Nat) (name : Option String) :
    Except String (Document × MemStorage) :=
  match getDocument s id with
  | none => .error "Document not found"
  | some document =>
    let updatedDoc : Document := { document with name := name }
    .ok (updatedDoc, { s with documents := mapSet Document.id s.documents id updatedDoc })

/-- Storage op `MemStorage.deleteDocument`. -/
def deleteDocument (s : MemStorage) (id : Nat) : MemStorage :=
  { s with documents := mapDelete Document.id s.documents id }

/-- Storage op `MemStorage.getAccessRequests`: all requests whose `userId` matches. -/
def getAccessRequests (s : MemStorage) (userId : Nat) : List AccessRequest :=
  s.accessRequests.filter (fun r => r.userId == userId)

/-- Storage op `MemStorage.createAccessRequest`: fresh id from `currentId.accessRequests++`. -/
def createAccessRequest (s : MemStorage) (userId : Nat) (requestedDocuments : List String)
    (requesterInfo : RequesterInfo) (status : Option String) : AccessRequest × MemStorage :=
  let id := s.nextAccessRequestId
  let newRequest : AccessRequest :=
    { id := id, userId := userId, requestedDocuments := requestedDocuments
      requesterInfo := requesterInfo, status := status }
  (newRequest, { s with accessRequests := mapSet AccessRequest.id s.accessRequests id newRequest
                        nextAccessRequestId := id + 1 })

/-- Storage op `MemStorage.updateAccessRequest`, specialised to the only call site in
`routes.ts`, which always passes `{ status: req.body.status }`. -/
def updateAccessRequest (s : MemStorage) (id : Nat) (status : Option String) :
    Except String (AccessRequest × MemStorage) :=
  match mapGet AccessRequest.id s.accessRequests id with
  | none => .error "Access request not found"
  | some request =>
    let updatedRequest : AccessRequest := { request with status := status }
    .ok (updatedRequest,
      { s with accessRequests := mapSet AccessRequest.id s.accessRequests id updatedRequest })

/-! ## Route handlers (`server/routes.ts`) -/

/-- The outcome an Express handler sends: `err s m` for
`res.status(s).json({ message: m })` (or `res.sendStatus(s)`), `ok s v`
for a success response with payload `v`. -/
inductive HttpResult (α : Type) where
  | err (status : Nat) (message : String)
  | ok (status : Nat) (value : α)
  deriving DecidableEq

/-- Returns `true` exactly when the handler produced a success response. -/
def isGranted {α : Type} : HttpResult α → Bool
  | .ok _ _ => true
  | .err _ _ => false

/-- A multer upload (`req.file`): its raw bytes and mimetype.  The byte
buffer and its base64 rendering `buffer.toString("base64")` are both
modelled by the same opaque `String` payload. -/
structure UploadFile where
  buffer : String
  mimetype : String
  deriving DecidableEq

/-- Handler for `POST /api/verify-pin/:userId`.  `compareHash` is the hash comparison
imported from `server/auth.ts`, which is outside the modelled sources, so
the handler is parametrised over it.  Returns the response together with
the caller's session after the call. -/
def verifyPinHandler (compareHash : String → String → Bool) (s : MemStorage)
    (sess : Session) (userId : Nat) (pin : String) : HttpResult Bool × Session :=
  match getUser s userId with
  | none => (.err 404 "User not found", sess)
  | some user =>
    let isValid := compareHash pin user.pin
    if isValid then (.ok 200 true, { sess with verifiedUserId := some userId })
    else (.ok 200 isValid, sess)

/-- Handler for `GET /api/documents/:userId` — the unauthenticated listing: it sends
`storage.getDocuments(userId)` as-is via `res.json`. -/
def getDocumentsByUserIdHandler (s : MemStorage) (userId : Nat) :
    HttpResult (List Document) :=
  .ok 200 (getDocuments s userId)

/-- Handler for `POST /api/documents` — upload.  `user` is `req.user?.id`,
`name` is `req.body.name` (`none` = absent), `file` is `req.file`. -/
def createDocumentHandler (s : MemStorage) (user : Option Nat) (name : Option String)
    (file : Option UploadFile) : HttpResult Document × MemStorage :=
  match user with
  | none => (.err 401 "Not authenticated", s)
  | some uid =>
    match file with
    | none => (.err 400 "No file uploaded", s)
    | some f =>
      if !truthyStr name then (.err 400 "Document name is required", s)
      else
        let existingDocs := getDocuments s uid
        if existingDocs.any (fun doc => doc.name == name) then
          (.err 400 "Document with this name already exists", s)
        else
          let created := createDocument s uid name f.buffer f.mimetype
          (.ok 201 created.1, created.2)

/-- Handler for `GET /api/documents` — the authenticated caller's own documents. -/
def getOwnDocumentsHandler (s : MemStorage) (user : Option Nat) :
    HttpResult (List Document) :=
  match user with
  | none => .err 401 "Unauthorized"
  | some uid => .ok 200 (getDocuments s uid)

/-- Handler for `PATCH /api/documents/:id` — rename.  Mirrors the source: the conflict
check runs only when `req.body.name` is truthy and differs from the current
name, and `updateDocument` is then called unconditionally with
`{ name: req.body.name }`. -/
def patchDocumentHandler (s : MemStorage) (user : Option Nat) (docId : Nat)
    (name : Option String) : HttpResult Document × MemStorage :=
  match user with
  | none => (.err 401 "Unauthorized", s)
  | some uid =>
    match getDocument s docId with
    | none => (.err 404 "Not Found", s)
    | some document =>
      if !(document.userId == uid) then (.err 404 "Not Found", s)
      else if truthyStr name && !(name == document.name) &&
          (getDocuments s uid).any (fun doc => doc.name == name) then
        (.err 400 "Document with this name already exists", s)
      else
        match updateDocument s document.id name with
        | .error e => (.err 500 e, s)
        | .ok (upd, s2) => (.ok 200 upd, s2)

/-- Handler for `DELETE /api/documents/:id`. -/
def deleteDocumentHandler (s : MemStorage) (user : Option Nat) (docId : Nat) :
    HttpResult Unit × MemStorage :=
  match user with
  | none => (.err 401 "Unauthorized", s)
  | some uid =>
    match getDocument s docId with
    | none => (.err 404 "Not Found", s)
    | some document =>
      if !(document.userId == uid) then (.err 404 "Not Found", s)
      else (.ok 204 (), deleteDocument s document.id)

/-- The read gate both document-read handlers evaluate:
`req.user?.id === document?.userId || req.session.verifiedUserId === document?.userId`.
JavaScript optional chaining makes both sides possibly `undefined`, and
`undefined === undefined` is `true`, which the `Option` `==` reproduces. -/
def hasAccess (sess : Session) (document : Option Document) : Bool :=
  (sess.authenticatedUserId == document.map Document.userId) ||
    (sess.verifiedUserId == document.map Document.userId)

/-- Handler for `GET /api/documents/:id/view`: the payload is
(`Content-Type` header, body buffer). -/
def viewDocumentHandler (s : MemStorage) (sess : Session) (docId : Nat) :
    HttpResult (String × String) :=
  let document := getDocument s docId
  match document with
  | none => .err 401 "Unauthorized access"
  | some d =>
    if hasAccess sess document then .ok 200 (d.contentType, d.content)
    else .err 401 "Unauthorized access"

/-- Handler for `GET /api/documents/:id/download`: the payload is
(`Content-Type` header, attachment filename, body buffer). -/
def downloadDocumentHandler (s : MemStorage) (sess : Session) (docId : Nat) :
    HttpResult (String × Option String × String) :=
  let document := getDocument s docId
  match document with
  | none => .err 401 "Unauthorized access"
  | some d =>
    if hasAccess sess document then .ok 200 (d.contentType, d.name, d.content)
    else .err 401 "Unauthorized access"

/-- The body of `POST /api/access-requests` (`none` = field absent). -/
structure AccessRequestBody where
  userId : Option Nat
  requestedDocuments : Option (List String)
  location : Option String
  deriving DecidableEq

/-- Computes `req.headers["user-agent"] || "Unknown device"`. -/
def deviceInfoOf : Option String → String
  | none => "Unknown device"
  | some ua => if ua == "" then "Unknown device" else ua

/-- Handler for `POST /api/access-requests`.  The guard
`!req.body.userId || !req.body.requestedDocuments` rejects a falsy
`userId` (absent or `0`) and an absent document list (a present array is
always truthy).  `userAgent` is the `user-agent` header, `now` the server
clock rendering `new Date().toISOString()`. -/
def createAccessRequestHandler (s : MemStorage) (body : AccessRequestBody)
    (userAgent : Option String) (now : String) : HttpResult AccessRequest × MemStorage :=
  if !truthyNum body.userId || body.requestedDocuments.isNone then
    (.err 400 "Bad Request", s)
  else
    match body.userId, body.requestedDocuments with
    | some uid, some docs =>
      let info : RequesterInfo :=
        { deviceInfo := deviceInfoOf userAgent, location := body.location, timestamp := now }
      let created := createAccessRequest s uid docs info (some "pending")
      (.ok 201 created.1, created.2)
    | _, _ => (.err 400 "Bad Request", s)

/-- Handler for `GET /api/access-requests` — the authenticated owner's requests. -/
def getAccessRequestsHandler (s : MemStorage) (user : Option Nat) :
    HttpResult (List AccessRequest) :=
  match user with
  | none => .err 401 "Unauthorized"
  | some uid => .ok 200 (getAccessRequests s uid)

/-- Handler for `PATCH /api/access-requests/:id`.  The only guard in the source is
`if (!req.user) return res.sendStatus(401)`; the authenticated id is never
compared to the request's `userId`.  A throwing `updateAccessRequest`
(absent id) surfaces as a server error with the store unchanged. -/
def patchAccessRequestHandler (s : MemStorage) (user : Option Nat) (reqId : Nat)
    (newStatus : Option String) : HttpResult AccessRequest × MemStorage :=
  match user with
  | none => (.err 401 "Unauthorized", s)
  | some _ =>
    match updateAccessRequest s reqId newStatus with
    | .error e => (.err 500 e, s)
    | .ok (r, s2) => (.ok 200 r, s2)

/-! ## Concrete fixtures

States built by running the handlers themselves from the constructor
state, so each fixture is reachable through the modelled API. -/

/-- A sample upload. -/
def demoFile : UploadFile := { buffer := "c2VjcmV0", mimetype := "application/pdf" }

/-- The user record registration creates first. -/
def demoUser : User := { id := 1, email := "owner@example.com", pin := "hash" }

/-- Register one user, then upload one document for them. -/
def demoStore : MemStorage :=
  (createDocumentHandler (createUser emptyStorage "owner@example.com" "hash").2
    (some 1) (some "a.pdf") (some demoFile)).2

/-- The document the upload in `demoStore` produced. -/
def demoDoc : Document :=
  { id := 1, userId := 1, name := some "a.pdf", content := "c2VjcmV0"
    contentType := "application/pdf" }

/-! ## Helper lemmas -/

/-- The read gate over an existing document is exactly ownership by the
authenticated identity or by the PIN-verified identity. -/
theorem hasAccess_some_iff (sess : Session) (d : Document) :
    hasAccess sess (some d) = true ↔
      (sess.authenticatedUserId = some d.userId ∨ sess.verifiedUserId = some d.userId) := by
  simp [hasAccess]

/-- Setting a key absent from the map appends. -/
theorem mapSet_append {α : Type} (key : α → Nat) (l : List α) (k : Nat) (v : α)
    (h : l.any (fun x => key x == k) = false) : mapSet key l k v = l ++ [v] := by
  unfold mapSet
  simp [h]

/-- Setting a key present in the map replaces in place. -/
theorem mapSet_replace {α : Type} (key : α → Nat) (l : List α) (k : Nat) (v : α)
    (h : l.any (fun x => key x == k) = true) :
    mapSet key l k v = l.map (fun x => if key x == k then v else x) := by
  unfold mapSet
  simp [h]

/-- Unfolding `updateDocument` on a present id. -/
theorem updateDocument_found (s : MemStorage) (id : Nat) (name : Option String)
    (d : Document) (hd : getDocument s id = some d) :
    updateDocument s id name =
      .ok ({ d with name := name },
        { s with documents := mapSet Document.id s.documents id { d with name := name } }) := by
  unfold updateDocument
  rw [hd]

/-- Unfolding `updateAccessRequest` on a present id. -/
theorem updateAccessRequest_found (s : MemStorage) (id : Nat) (status : Option String)
    (r : AccessRequest) (hr : mapGet AccessRequest.id s.accessRequests id = some r) :
    updateAccessRequest s id status =
      .ok ({ r with status := status },
        { s with accessRequests :=
            mapSet AccessRequest.id s.accessRequests id { r with status := status } }) := by
  unfold updateAccessRequest
  rw [hr]

/-- The access-request PATCH handler never touches the documents map. -/
theorem patchAccessRequestHandler_documents (s : MemStorage) (user : Option Nat)
    (reqId : Nat) (newStatus : Option String) :
    ((patchAccessRequestHandler s user reqId newStatus).2).documents = s.documents := by
  unfold patchAccessRequestHandler
  cases user with
  | none => rfl
  | some uid =>
    cases hr : mapGet AccessRequest.id s.accessRequests reqId with
    | none =>
      unfold updateAccessRequest
      rw [hr]
    | some r =>
      rw [updateAccessRequest_found s reqId newStatus r hr]

/-- The view handler reads only the documents map. -/
theorem viewDocumentHandler_congr (s t : MemStorage) (h : t.documents = s.documents)
    (sess : Session) (docId : Nat) :
    viewDocumentHandler t sess docId = viewDocumentHandler s sess docId := by
  unfold viewDocumentHandler getDocument mapGet
  rw [h]

/-- The download handler reads only the documents map. -/
theorem downloadDocumentHandler_congr (s t : MemStorage) (h : t.documents = s.documents)
    (sess : Session) (docId : Nat) :
    downloadDocumentHandler t sess docId = downloadDocumentHandler s sess docId := by
  unfold downloadDocumentHandler getDocument mapGet
  rw [h]

/-! ## Claims -/

/-- C1: for every session and every document in the store, the read gate
used by the view and download handlers grants access exactly when the
session's authenticated user id equals the document's owner id or the
session's PIN-verified owner id equals the document's owner id; every
other combination (including a verified id for a different owner) is
denied. -/
theorem readGate_iff_owner_or_verified (s : MemStorage) (sess : Session)
    (docId : Nat) (d : Document) (hd : getDocument s docId = some d) :
    (isGranted (viewDocumentHandler s sess docId) = true ↔
      (sess.authenticatedUserId = some d.userId ∨ sess.verifiedUserId = some d.userId)) ∧
    (isGranted (downloadDocumentHandler s sess docId) = true ↔
      (sess.authenticatedUserId = some d.userId ∨ sess.verifiedUserId = some d.userId)) := by
  rw [← hasAccess_some_iff sess d]
  unfold viewDocumentHandler downloadDocumentHandler
  rw [hd]
  by_cases h : hasAccess sess (some d) = true
  · simp [h, isGranted]
  · simp [Bool.not_eq_true] at h
    simp [h, isGranted]

/-- Witness for C1 at a concrete store, document and session. -/
theorem readGate_iff_owner_or_verified_witness :
    getDocument demoStore 1 = some demoDoc ∧
    ((isGranted (viewDocumentHandler demoStore ⟨none, some 1⟩ 1) = true ↔
      ((⟨none, some 1⟩ : Session).authenticatedUserId = some demoDoc.userId ∨
        (⟨none, some 1⟩ : Session).verifiedUserId = some demoDoc.userId)) ∧
     (isGranted (downloadDocumentHandler demoStore ⟨none, some 1⟩ 1) = true ↔
      ((⟨none, some 1⟩ : Session).authenticatedUserId = some demoDoc.userId ∨
        (⟨none, some 1⟩ : Session).verifiedUserId = some demoDoc.userId))) :=
  ⟨rfl, readGate_iff_owner_or_verified demoStore ⟨none, some 1⟩ 1 demoDoc rfl⟩

/-- C4: when the target user exists, a matching PIN sets the session's
verified owner id to exactly the target user id (leaving the
authenticated id alone), and a mismatching PIN returns `valid = false`
and leaves the whole session unchanged.  The hash comparison from
`server/auth.ts` is a parameter. -/
theorem verifyPin_elevates_exactly_target (compareHash : String → String → Bool)
    (s : MemStorage) (sess : Session) (userId : Nat) (pin : String) (user : User)
    (hu : getUser s userId = some user) :
    (compareHash pin user.pin = true →
      verifyPinHandler compareHash s sess userId pin =
        (.ok 200 true, { sess with verifiedUserId := some userId })) ∧
    (compareHash pin user.pin = false →
      verifyPinHandler compareHash s sess userId pin = (.ok 200 false, sess)) := by
  unfold verifyPinHandler
  rw [hu]
  constructor <;> intro h <;> simp [h]

/-- Witness for C4: a concrete user, a matching and a mismatching PIN. -/
theorem verifyPin_elevates_exactly_target_witness :
    getUser demoStore 1 = some demoUser ∧
    (((fun a b => a == b) "hash" demoUser.pin = true →
      verifyPinHandler (fun a b => a == b) demoStore ⟨some 9, none⟩ 1 "hash" =
        (.ok 200 true, { (⟨some 9, none⟩ : Session) with verifiedUserId := some 1 })) ∧
     ((fun a b => a == b) "hash" demoUser.pin = false →
      verifyPinHandler (fun a b => a == b) demoStore ⟨some 9, none⟩ 1 "hash" =
        (.ok 200 false, ⟨some 9, none⟩))) :=
  ⟨rfl, verifyPin_elevates_exactly_target (fun a b => a == b) demoStore ⟨some 9, none⟩ 1 "hash"
    demoUser rfl⟩

/-- C9: both document-read handlers answer a missing document id and an
existing-but-denied document with the very same generic response,
status 401 with message "Unauthorized access", so the error never reveals
whether the document exists. -/
theorem missing_and_denied_same_unauthorized (s : MemStorage) (sess : Session) (docId : Nat)
    (h : getDocument s docId = none ∨
      ∃ d, getDocument s docId = some d ∧ hasAccess sess (some d) = false) :
    viewDocumentHandler s sess docId = .err 401 "Unauthorized access" ∧
    downloadDocumentHandler s sess docId = .err 401 "Unauthorized access" := by
  unfold viewDocumentHandler downloadDocumentHandler
  rcases h with h | ⟨d, hd, hden⟩
  · rw [h]
    exact ⟨rfl, rfl⟩
  · rw [hd]
    simp [hden]

/-- Witness for C9: in `demoStore`, document id 2 is missing while
document id 1 exists but is denied to a session authenticated as user 2
and PIN-verified for user 3; both cases get the same generic response. -/
theorem missing_and_denied_same_unauthorized_witness :
    (getDocument demoStore 2 = none ∧
      viewDocumentHandler demoStore ⟨none, none⟩ 2 = .err 401 "Unauthorized access" ∧
      downloadDocumentHandler demoStore ⟨none, none⟩ 2 = .err 401 "Unauthorized access") ∧
    (getDocument demoStore 1 = some demoDoc ∧
      hasAccess ⟨some 2, some 3⟩ (some demoDoc) = false ∧
      viewDocumentHandler demoStore ⟨some 2, some 3⟩ 1 = .err 401 "Unauthorized access" ∧
      downloadDocumentHandler demoStore ⟨some 2, some 3⟩ 1 = .err 401 "Unauthorized access") :=
  ⟨⟨rfl,
    (missing_and_denied_same_unauthorized demoStore ⟨none, none⟩ 2 (Or.inl rfl)).1,
    (missing_and_denied_same_unauthorized demoStore ⟨none, none⟩ 2 (Or.inl rfl)).2⟩,
   ⟨rfl, rfl,
    (missing_and_denied_same_unauthorized demoStore ⟨some 2, some 3⟩ 1
      (Or.inr ⟨demoDoc, rfl, rfl⟩)).1,
    (missing_and_denied_same_unauthorized demoStore ⟨some 2, some 3⟩ 1
      (Or.inr ⟨demoDoc, rfl, rfl⟩)).2⟩⟩

/-- C8: transitioning an access request (the PATCH access-request
handler) never changes the outcome of the view or download decision: the
responses are identical on the store before and after, for every session,
document id, caller and new status. -/
theorem approval_does_not_affect_read_gate (s : MemStorage) (user : Option Nat)
    (reqId : Nat) (newStatus : Option String) (sess : Session) (docId : Nat) :
    viewDocumentHandler (patchAccessRequestHandler s user reqId newStatus).2 sess docId =
      viewDocumentHandler s sess docId ∧
    downloadDocumentHandler (patchAccessRequestHandler s user reqId newStatus).2 sess docId =
      downloadDocumentHandler s sess docId :=
  ⟨viewDocumentHandler_congr s _ (patchAccessRequestHandler_documents s user reqId newStatus)
      sess docId,
   downloadDocumentHandler_congr s _ (patchAccessRequestHandler_documents s user reqId newStatus)
      sess docId⟩

/-- C2 (violated by the code): the unauthenticated listing endpoint sends
`storage.getDocuments(userId)` unprojected, so its response carries the
full document record — `content` (here the base64 payload "c2VjcmV0") and
`userId` included — not just name, id and contentType. -/
theorem unauthenticatedListing_returns_full_content :
    getDocumentsByUserIdHandler demoStore 1 =
      .ok 200 [{ id := 1, userId := 1, name := some "a.pdf", content := "c2VjcmV0"
                 contentType := "application/pdf" }] := by
  rfl

/-- Two registered users and one access request targeting user 1,
created through the handlers from the constructor state. -/
def twoUserStore : MemStorage :=
  (createAccessRequestHandler
    (createUser (createUser emptyStorage "target@example.com" "h1").2
      "other@example.com" "h2").2
    { userId := some 1, requestedDocuments := some ["3", "4"], location := none }
    (some "agent") "2026-01-01T00:00:00.000Z").2

/-- The request stored in `twoUserStore`, targeting user 1, pending. -/
def twoUserStoreRequest : AccessRequest :=
  { id := 1, userId := 1, requestedDocuments := ["3", "4"]
    requesterInfo := { deviceInfo := "agent", location := none
                       timestamp := "2026-01-01T00:00:00.000Z" }
    status := some "pending" }

/-- C3 (violated by the code): the PATCH access-request handler only
checks that some user is authenticated; here user 2, who is not the
request's target (user 1), successfully transitions the request — the
call returns 200 and the stored status becomes "approved". -/
theorem accessRequest_transition_by_non_target_succeeds :
    getAccessRequests twoUserStore 1 = [twoUserStoreRequest] ∧
    patchAccessRequestHandler twoUserStore (some 2) 1 (some "approved") =
      (.ok 200 { twoUserStoreRequest with status := some "approved" },
       { twoUserStore with
          accessRequests := [{ twoUserStoreRequest with status := some "approved" }] }) := by
  exact ⟨rfl, rfl⟩

/-- One user with two documents "a" and "b", then document 1 renamed with
the empty string: the falsy name skips the conflict check but is still
written, so document 1 now holds the pair (owner 1, name ""). -/
def emptyNameStore : MemStorage :=
  (patchDocumentHandler
    (createDocumentHandler
      (createDocumentHandler (createUser emptyStorage "owner@example.com" "h").2
        (some 1) (some "a") (some { buffer := "ca", mimetype := "ta" })).2
      (some 1) (some "b") (some { buffer := "cb", mimetype := "tb" })).2
    (some 1) 1 (some "")).2

/-- C6 (violated by the code): in `emptyNameStore` document 1 already
holds the pair (owner 1, name "").  Renaming document 2 of the same owner
to that same taken name nevertheless succeeds with 200 — the falsy name
bypasses the conflict check yet is written — and the resulting reachable
store has two distinct documents sharing both ownerId and name. -/
theorem rename_empty_name_breaks_name_uniqueness :
    getDocument emptyNameStore 1 =
      some { id := 1, userId := 1, name := some "", content := "ca", contentType := "ta" } ∧
    patchDocumentHandler emptyNameStore (some 1) 2 (some "") =
      (.ok 200 { id := 2, userId := 1, name := some "", content := "cb", contentType := "tb" },
       { emptyNameStore with documents :=
          [{ id := 1, userId := 1, name := some "", content := "ca", contentType := "ta" },
           { id := 2, userId := 1, name := some "", content := "cb", contentType := "tb" }] }) := by
  exact ⟨rfl, rfl⟩

/-- C5: whenever the create-access-request handler accepts its input and
produces a request, that request has status "pending". -/
theorem accessRequest_created_pending (s : MemStorage) (body : AccessRequestBody)
    (userAgent : Option String) (now : String) (r : AccessRequest) (s2 : MemStorage)
    (h : createAccessRequestHandler s body userAgent now = (.ok 201 r, s2)) :
    r.status = some "pending" := by
  unfold createAccessRequestHandler at h
  split at h
  · simp at h
  · split at h
    · rw [Prod.mk.injEq] at h
      have hr := h.1
      rw [HttpResult.ok.injEq] at hr
      rw [← hr.2]
      rfl
    · simp at h

/-- Witness for C5: a concrete accepted creation. -/
theorem accessRequest_created_pending_witness :
    createAccessRequestHandler emptyStorage
        { userId := some 1, requestedDocuments := some ["3"], location := none }
        none "t0" =
      (.ok 201 { id := 1, userId := 1, requestedDocuments := ["3"]
                 requesterInfo := { deviceInfo := "Unknown device", location := none
                                    timestamp := "t0" }
                 status := some "pending" },
       { emptyStorage with
          accessRequests := [{ id := 1, userId := 1, requestedDocuments := ["3"]
                               requesterInfo := { deviceInfo := "Unknown device", location := none
                                                  timestamp := "t0" }
                               status := some "pending" }]
          nextAccessRequestId := 2 }) ∧
    ({ id := 1, userId := 1, requestedDocuments := ["3"]
       requesterInfo := { deviceInfo := "Unknown device", location := none, timestamp := "t0" }
       status := some "pending" } : AccessRequest).status = some "pending" :=
  ⟨rfl, accessRequest_created_pending emptyStorage
    { userId := some 1, requestedDocuments := some ["3"], location := none } none "t0" _ _ rfl⟩

/-- Unfolding the rename handler for an authenticated caller when the
document id is present. -/
theorem patchDocumentHandler_some (s : MemStorage) (uid docId : Nat) (name : Option String)
    (d : Document) (hd : getDocument s docId = some d) :
    patchDocumentHandler s (some uid) docId name =
      (if !(d.userId == uid) then (.err 404 "Not Found", s)
       else if truthyStr name && !(name == d.name) &&
           (getDocuments s uid).any (fun doc => doc.name == name) then
         (.err 400 "Document with this name already exists", s)
       else
         match updateDocument s d.id name with
         | .error e => (.err 500 e, s)
         | .ok (u2, t2) => (.ok 200 u2, t2)) := by
  unfold patchDocumentHandler
  rw [hd]

/-- C10: when the rename handler succeeds for the authenticated owner
with a supplied (truthy) new name, only the target document's name
changes: its id, userId, content and contentType are kept, the documents
map is the old map with just that entry replaced (so every other document
is untouched), and users, access requests and all id counters are
unchanged. -/
theorem rename_changes_only_target_name (s : MemStorage) (uid docId : Nat)
    (name : Option String) (d upd : Document) (s2 : MemStorage) (x : Document)
    (hd : getDocument s docId = some d)
    (_hn : truthyStr name = true)
    (_hnew : name ≠ d.name)
    (h : patchDocumentHandler s (some uid) docId name = (.ok 200 upd, s2)) :
    upd.id = d.id ∧ upd.userId = d.userId ∧ upd.content = d.content ∧
    upd.contentType = d.contentType ∧ upd.name = name ∧
    s2.documents = s.documents.map (fun y => if y.id == d.id then upd else y) ∧
    (x ∈ s.documents → x.id ≠ d.id → x ∈ s2.documents) ∧
    s2.users = s.users ∧ s2.accessRequests = s.accessRequests ∧
    s2.nextUserId = s.nextUserId ∧ s2.nextDocumentId = s.nextDocumentId ∧
    s2.nextAccessRequestId = s.nextAccessRequestId := by
  have hd' : s.documents.find? (fun y => y.id == docId) = some d := hd
  have hmem : d ∈ s.documents := List.mem_of_find?_eq_some hd'
  have hid : d.id = docId := by simpa using List.find?_some hd'
  have hdid : getDocument s d.id = some d := by rw [hid]; exact hd
  rw [patchDocumentHandler_some s uid docId name d hd] at h
  split at h
  · simp at h
  · split at h
    · simp at h
    · rw [updateDocument_found s d.id name d hdid] at h
      have h2 : ((HttpResult.ok 200 { d with name := name } : HttpResult Document),
          ({ s with documents :=
              mapSet Document.id s.documents d.id { d with name := name } } : MemStorage)) =
          (.ok 200 upd, s2) := h
      rw [Prod.mk.injEq, HttpResult.ok.injEq] at h2
      obtain ⟨⟨-, hupd⟩, hs2⟩ := h2
      subst hupd
      subst hs2
      have hany : s.documents.any (fun y => Document.id y == d.id) = true :=
        List.any_eq_true.mpr ⟨d, hmem, by simp⟩
      have hdocs : mapSet Document.id s.documents d.id { d with name := name } =
          s.documents.map (fun y => if y.id == d.id then { d with name := name } else y) :=
        mapSet_replace Document.id s.documents d.id { d with name := name } hany
      refine ⟨rfl, rfl, rfl, rfl, rfl, hdocs, ?_, rfl, rfl, rfl, rfl, rfl⟩
      intro hx hne
      show x ∈ mapSet Document.id s.documents d.id { d with name := name }
      rw [hdocs]
      exact List.mem_map.mpr ⟨x, hx, by simp [hne]⟩

/-- The document of `demoStore` renamed to "b.pdf". -/
def renamedDoc : Document := { demoDoc with name := some "b.pdf" }

/-- The store `demoStore` after the rename of document 1 to "b.pdf". -/
def renamedStore : MemStorage := { demoStore with documents := [renamedDoc] }

/-- Witness for C10: a concrete successful rename in `demoStore`. -/
theorem rename_changes_only_target_name_witness :
    (getDocument demoStore 1 = some demoDoc ∧ truthyStr (some "b.pdf") = true ∧
      (some "b.pdf" : Option String) ≠ demoDoc.name ∧
      patchDocumentHandler demoStore (some 1) 1 (some "b.pdf") =
        (.ok 200 renamedDoc, renamedStore)) ∧
    (renamedDoc.id = demoDoc.id ∧ renamedDoc.userId = demoDoc.userId ∧
      renamedDoc.content = demoDoc.content ∧ renamedDoc.contentType = demoDoc.contentType ∧
      renamedDoc.name = some "b.pdf" ∧
      renamedStore.documents =
        demoStore.documents.map (fun y => if y.id == demoDoc.id then renamedDoc else y) ∧
      (demoDoc ∈ demoStore.documents → demoDoc.id ≠ demoDoc.id → demoDoc ∈ renamedStore.documents) ∧
      renamedStore.users = demoStore.users ∧
      renamedStore.accessRequests = demoStore.accessRequests ∧
      renamedStore.nextUserId = demoStore.nextUserId ∧
      renamedStore.nextDocumentId = demoStore.nextDocumentId ∧
      renamedStore.nextAccessRequestId = demoStore.nextAccessRequestId) :=
  ⟨⟨rfl, rfl, by decide, rfl⟩,
   rename_changes_only_target_name demoStore 1 1 (some "b.pdf") demoDoc renamedDoc renamedStore
     demoDoc rfl rfl (by decide) rfl⟩

/-! ## Reachable states and the access-request ordering invariant -/

/-- One mutating API call of the server. -/
inductive Step : MemStorage → MemStorage → Prop where
  | registerUser (s : MemStorage) (email pin : String) :
      Step s (createUser s email pin).2
  | uploadDocument (s : MemStorage) (user : Option Nat) (name : Option String)
      (file : Option UploadFile) : Step s (createDocumentHandler s user name file).2
  | renameDocument (s : MemStorage) (user : Option Nat) (docId : Nat) (name : Option String) :
      Step s (patchDocumentHandler s user docId name).2
  | removeDocument (s : MemStorage) (user : Option Nat) (docId : Nat) :
      Step s (deleteDocumentHandler s user docId).2
  | requestAccess (s : MemStorage) (body : AccessRequestBody) (userAgent : Option String)
      (now : String) : Step s (createAccessRequestHandler s body userAgent now).2
  | transitionRequest (s : MemStorage) (user : Option Nat) (reqId : Nat)
      (newStatus : Option String) : Step s (patchAccessRequestHandler s user reqId newStatus).2

/-- Server states reachable from the constructor state through the API. -/
inductive Reachable : MemStorage → Prop where
  | init : Reachable emptyStorage
  | step {s t : MemStorage} : Reachable s → Step s t → Reachable t

/-- Access-request bookkeeping invariant: stored ids strictly increase in
insertion order (so insertion order is creation order) and stay below the
next-id counter. -/
def ARInv (s : MemStorage) : Prop :=
  List.Pairwise (· < ·) (s.accessRequests.map AccessRequest.id) ∧
  ∀ i ∈ s.accessRequests.map AccessRequest.id, i < s.nextAccessRequestId

/-- Unfolding the upload handler for an authenticated caller with a file. -/
theorem createDocumentHandler_someSome (s : MemStorage) (uid : Nat) (name : Option String)
    (f : UploadFile) :
    createDocumentHandler s (some uid) name (some f) =
      (if !truthyStr name then (.err 400 "Document name is required", s)
       else if (getDocuments s uid).any (fun doc => doc.name == name) then
         (.err 400 "Document with this name already exists", s)
       else (.ok 201 (createDocument s uid name f.buffer f.mimetype).1,
             (createDocument s uid name f.buffer f.mimetype).2)) := rfl

/-- Unfolding the delete handler for an authenticated caller when the
document id is present. -/
theorem deleteDocumentHandler_some (s : MemStorage) (uid docId : Nat) (d : Document)
    (hd : getDocument s docId = some d) :
    deleteDocumentHandler s (some uid) docId =
      (if !(d.userId == uid) then (.err 404 "Not Found", s)
       else (.ok 204 (), deleteDocument s d.id)) := by
  unfold deleteDocumentHandler
  rw [hd]

/-- A successful `updateDocument` only rewrites the documents map. -/
theorem updateDocument_ok_fields (s : MemStorage) (id : Nat) (name : Option String)
    (u2 : Document) (t2 : MemStorage) (h : updateDocument s id name = .ok (u2, t2)) :
    ∃ docs, t2 = { s with documents := docs } := by
  cases hg : getDocument s id with
  | none =>
    unfold updateDocument at h
    rw [hg] at h
    simp at h
  | some d =>
    rw [updateDocument_found s id name d hg] at h
    have h2 : (({ d with name := name } : Document),
        ({ s with documents := mapSet Document.id s.documents id { d with name := name } } :
          MemStorage)) = (u2, t2) := by
      rw [Except.ok.injEq] at h
      exact h
    rw [Prod.mk.injEq] at h2
    exact ⟨mapSet Document.id s.documents id { d with name := name }, h2.2.symm⟩

/-- The upload handler only rewrites the documents map and its counter. -/
theorem createDocumentHandler_documents_only (s : MemStorage) (user : Option Nat)
    (name : Option String) (file : Option UploadFile) :
    ∃ docs n, (createDocumentHandler s user name file).2 =
      { s with documents := docs, nextDocumentId := n } := by
  cases user with
  | none => exact ⟨s.documents, s.nextDocumentId, rfl⟩
  | some uid =>
    cases file with
    | none => exact ⟨s.documents, s.nextDocumentId, rfl⟩
    | some f =>
      rw [createDocumentHandler_someSome s uid name f]
      split
      · exact ⟨s.documents, s.nextDocumentId, rfl⟩
      · split
        · exact ⟨s.documents, s.nextDocumentId, rfl⟩
        · exact ⟨mapSet Document.id s.documents s.nextDocumentId
            { id := s.nextDocumentId, userId := uid, name := name, content := f.buffer
              contentType := f.mimetype }, s.nextDocumentId + 1, rfl⟩

/-- The rename handler only rewrites the documents map. -/
theorem patchDocumentHandler_documents_only (s : MemStorage) (user : Option Nat)
    (docId : Nat) (name : Option String) :
    ∃ docs, (patchDocumentHandler s user docId name).2 = { s with documents := docs } := by
  cases user with
  | none => exact ⟨s.documents, rfl⟩
  | some uid =>
    cases hd : getDocument s docId with
    | none =>
      unfold patchDocumentHandler
      rw [hd]
      exact ⟨s.documents, rfl⟩
    | some d =>
      rw [patchDocumentHandler_some s uid docId name d hd]
      split
      · exact ⟨s.documents, rfl⟩
      · split
        · exact ⟨s.documents, rfl⟩
        · cases hu : updateDocument s d.id name with
          | error e => exact ⟨s.documents, rfl⟩
          | ok p =>
            obtain ⟨u2, t2⟩ := p
            obtain ⟨docs, hdocs⟩ := updateDocument_ok_fields s d.id name u2 t2 hu
            exact ⟨docs, hdocs⟩

/-- The delete handler only rewrites the documents map. -/
theorem deleteDocumentHandler_documents_only (s : MemStorage) (user : Option Nat)
    (docId : Nat) :
    ∃ docs, (deleteDocumentHandler s user docId).2 = { s with documents := docs } := by
  cases user with
  | none => exact ⟨s.documents, rfl⟩
  | some uid =>
    cases hd : getDocument s docId with
    | none =>
      unfold deleteDocumentHandler
      rw [hd]
      exact ⟨s.documents, rfl⟩
    | some d =>
      rw [deleteDocumentHandler_some s uid docId d hd]
      split
      · exact ⟨s.documents, rfl⟩
      · exact ⟨mapDelete Document.id s.documents d.id, rfl⟩

/-- Appending a fresh access request preserves the invariant. -/
theorem ARInv_createAccessRequest (s : MemStorage) (uid : Nat) (docs : List String)
    (info : RequesterInfo) (st : Option String) (h : ARInv s) :
    ARInv (createAccessRequest s uid docs info st).2 := by
  obtain ⟨hp, hb⟩ := h
  have hany : s.accessRequests.any
      (fun x => AccessRequest.id x == s.nextAccessRequestId) = false := by
    rw [List.any_eq_false]
    intro x hx
    have hlt := hb x.id (List.mem_map_of_mem AccessRequest.id hx)
    simp only [beq_iff_eq]
    exact Nat.ne_of_lt hlt
  have happ := mapSet_append AccessRequest.id s.accessRequests s.nextAccessRequestId
    { id := s.nextAccessRequestId, userId := uid, requestedDocuments := docs
      requesterInfo := info, status := st } hany
  unfold ARInv createAccessRequest
  refine ⟨?_, ?_⟩
  · show List.Pairwise (· < ·)
      ((mapSet AccessRequest.id s.accessRequests s.nextAccessRequestId
        { id := s.nextAccessRequestId, userId := uid, requestedDocuments := docs
          requesterInfo := info, status := st }).map AccessRequest.id)
    rw [happ, List.map_append, List.pairwise_append]
    refine ⟨hp, List.pairwise_singleton _ _, ?_⟩
    intro a ha b hbm
    simp only [List.map_cons, List.map_nil, List.mem_singleton] at hbm
    rw [hbm]
    exact hb a ha
  · show ∀ i ∈ (mapSet AccessRequest.id s.accessRequests s.nextAccessRequestId
        { id := s.nextAccessRequestId, userId := uid, requestedDocuments := docs
          requesterInfo := info, status := st }).map AccessRequest.id,
      i < s.nextAccessRequestId + 1
    rw [happ, List.map_append]
    intro i hi
    rw [List.mem_append] at hi
    rcases hi with hi | hi
    · exact Nat.lt_succ_of_lt (hb i hi)
    · simp only [List.map_cons, List.map_nil, List.mem_singleton] at hi
      rw [hi]
      exact Nat.lt_succ_self _

/-- The create-access-request handler preserves the invariant. -/
theorem ARInv_requestAccess (s : MemStorage) (body : AccessRequestBody)
    (userAgent : Option String) (now : String) (h : ARInv s) :
    ARInv (createAccessRequestHandler s body userAgent now).2 := by
  unfold createAccessRequestHandler
  split
  · exact h
  · split
    · exact ARInv_createAccessRequest s _ _ _ _ h
    · exact h

/-- The transition handler preserves the invariant: it replaces one
request in place with a record of the same id. -/
theorem ARInv_transitionRequest (s : MemStorage) (user : Option Nat) (reqId : Nat)
    (newStatus : Option String) (h : ARInv s) :
    ARInv (patchAccessRequestHandler s user reqId newStatus).2 := by
  unfold patchAccessRequestHandler
  cases user with
  | none => exact h
  | some uid =>
    cases hr : mapGet AccessRequest.id s.accessRequests reqId with
    | none =>
      unfold updateAccessRequest
      rw [hr]
      exact h
    | some r =>
      rw [updateAccessRequest_found s reqId newStatus r hr]
      have hr2 : s.accessRequests.find? (fun x => AccessRequest.id x == reqId) = some r := hr
      have hrid0 := List.find?_some hr2
      have hrid : (AccessRequest.id r == reqId) = true := hrid0
      have hany : s.accessRequests.any (fun x => AccessRequest.id x == reqId) = true :=
        List.any_eq_true.mpr ⟨r, List.mem_of_find?_eq_some hr2, hrid⟩
      have hids : (mapSet AccessRequest.id s.accessRequests reqId
            { r with status := newStatus }).map AccessRequest.id =
          s.accessRequests.map AccessRequest.id := by
        rw [mapSet_replace _ _ _ _ hany, List.map_map]
        apply List.map_congr_left
        intro x hx
        simp only [Function.comp_apply]
        by_cases hxk : (AccessRequest.id x == reqId) = true
        · rw [if_pos hxk]
          have h1 : r.id = reqId := by simpa using hrid
          have h2 : x.id = reqId := by simpa using hxk
          show r.id = x.id
          rw [h1, h2]
        · rw [if_neg hxk]
      obtain ⟨hp, hb⟩ := h
      refine ⟨?_, ?_⟩
      · show List.Pairwise (· < ·) ((mapSet AccessRequest.id s.accessRequests reqId
            { r with status := newStatus }).map AccessRequest.id)
        rw [hids]
        exact hp
      · show ∀ i ∈ (mapSet AccessRequest.id s.accessRequests reqId
            { r with status := newStatus }).map AccessRequest.id, i < s.nextAccessRequestId
        rw [hids]
        exact hb

/-- Every API step preserves the access-request invariant. -/
theorem step_preserves_ARInv {s t : MemStorage} (hst : Step s t) (h : ARInv s) : ARInv t := by
  cases hst with
  | registerUser email pin => exact h
  | uploadDocument user name file =>
    obtain ⟨docs, n, heq⟩ := createDocumentHandler_documents_only s user name file
    unfold ARInv at h ⊢
    rw [heq]
    exact h
  | renameDocument user docId name =>
    obtain ⟨docs, heq⟩ := patchDocumentHandler_documents_only s user docId name
    unfold ARInv at h ⊢
    rw [heq]
    exact h
  | removeDocument user docId =>
    obtain ⟨docs, heq⟩ := deleteDocumentHandler_documents_only s user docId
    unfold ARInv at h ⊢
    rw [heq]
    exact h
  | requestAccess body userAgent now => exact ARInv_requestAccess s body userAgent now h
  | transitionRequest user reqId newStatus =>
    exact ARInv_transitionRequest s user reqId newStatus h

/-- Every reachable state satisfies the access-request invariant. -/
theorem reachable_ARInv {s : MemStorage} (h : Reachable s) : ARInv s := by
  induction h with
  | init => exact ⟨List.Pairwise.nil, by simp [emptyStorage]⟩
  | step hs hst ih => exact step_preserves_ARInv hst ih

/-- C7: in every reachable state, the owner's access-request listing
contains a request exactly when the store holds it with that target user
id (no request of another target, none omitted, every status included —
membership never looks at the status), and the returned list is ordered
by strictly increasing id, i.e. by creation order. -/
theorem listAccessRequests_exact_and_ordered (s : MemStorage) (uid : Nat)
    (r : AccessRequest) (hs : Reachable s) :
    getAccessRequestsHandler s (some uid) = .ok 200 (getAccessRequests s uid) ∧
    (r ∈ getAccessRequests s uid ↔ r ∈ s.accessRequests ∧ r.userId = uid) ∧
    List.Pairwise (fun a b => a.id < b.id) (getAccessRequests s uid) := by
  refine ⟨rfl, ?_, ?_⟩
  · unfold getAccessRequests
    rw [List.mem_filter]
    simp
  · have hp := (reachable_ARInv hs).1
    rw [List.pairwise_map] at hp
    exact hp.filter _

/-- The store after two access-request creations from the constructor
state, both targeting user 1. -/
def twoRequestStore : MemStorage :=
  (createAccessRequestHandler
    (createAccessRequestHandler emptyStorage
      { userId := some 1, requestedDocuments := some ["a"], location := none } none "t1").2
    { userId := some 1, requestedDocuments := some ["b"], location := none } none "t2").2

/-- Reachability certificate for `twoRequestStore`. -/
theorem twoRequestStore_reachable : Reachable twoRequestStore :=
  Reachable.step
    (Reachable.step Reachable.init
      (Step.requestAccess emptyStorage
        { userId := some 1, requestedDocuments := some ["a"], location := none } none "t1"))
    (Step.requestAccess
      (createAccessRequestHandler emptyStorage
        { userId := some 1, requestedDocuments := some ["a"], location := none } none "t1").2
      { userId := some 1, requestedDocuments := some ["b"], location := none } none "t2")

/-- The first request stored in `twoRequestStore`. -/
def firstRequest : AccessRequest :=
  { id := 1, userId := 1, requestedDocuments := ["a"]
    requesterInfo := { deviceInfo := "Unknown device", location := none, timestamp := "t1" }
    status := some "pending" }

/-- Witness for C7: the two-request reachable store, owner 1. -/
theorem listAccessRequests_exact_and_ordered_witness :
    Reachable twoRequestStore ∧
    (getAccessRequestsHandler twoRequestStore (some 1) =
        .ok 200 (getAccessRequests twoRequestStore 1) ∧
      (firstRequest ∈ getAccessRequests twoRequestStore 1 ↔
        firstRequest ∈ twoRequestStore.accessRequests ∧ firstRequest.userId = 1) ∧
      List.Pairwise (fun a b => a.id < b.id) (getAccessRequests twoRequestStore 1)) :=
  ⟨twoRequestStore_reachable,
   listAccessRequests_exact_and_ordered twoRequestStore 1 firstRequest twoRequestStore_reachable⟩

end QRVault
